import Mathlib

/-!
Verification development for the Statement Ingestion & Portfolio
Reconciliation Engine (`backend/routers/ingest.py`, `portfolio.py`,
`closed_trades.py`).

The Python source is shallowly embedded: pure helper functions become Lean
functions over `String` and `ℚ` (Python floats in the source only ever hold
values parsed from decimal text and combined with `+ - * / abs`, so exact
rational arithmetic mirrors them on all inputs considered here), fallible
parsing returns `Option`, and the Mongo collections touched by the ingestion
endpoints become explicit lists of records threaded through fold functions.

String primitives (`strip`, `upper`, `replace`, ...) are re-implemented over
`List Char` with Python semantics so that every definition evaluates by
kernel reduction.
-/

namespace Trading

/-! ### Python string primitives -/

/-- Whitespace for Python `str.strip` / `\s` on the characters that occur in
broker exports (ASCII whitespace plus the non-breaking space U+00A0). -/
def isPySpace (c : Char) : Bool :=
  c == ' ' || c == '\t' || c == '\n' || c == '\r'
    || c == Char.ofNat 0x0B || c == Char.ofNat 0x0C || c == Char.ofNat 0xA0

def dropWhileList (p : Char → Bool) : List Char → List Char
  | [] => []
  | c :: cs => if p c then dropWhileList p cs else c :: cs

/-- Python `s.strip()`. -/
def pyStrip (s : String) : String :=
  ⟨(dropWhileList isPySpace ((dropWhileList isPySpace s.toList.reverse).reverse))⟩

def upChar (c : Char) : Char :=
  if 'a' ≤ c && c ≤ 'z' then Char.ofNat (c.toNat - 32) else c

def downChar (c : Char) : Char :=
  if 'A' ≤ c && c ≤ 'Z' then Char.ofNat (c.toNat + 32) else c

/-- Python `s.upper()` (ASCII; the cells handled here contain no cased
non-ASCII letters). -/
def pyUpper (s : String) : String := ⟨s.toList.map upChar⟩

/-- Python `s.lower()`. -/
def pyLower (s : String) : String := ⟨s.toList.map downChar⟩

/-- Does `p` occur at the head of `s`? -/
def charsAt : List Char → List Char → Bool
  | [], _ => true
  | _ :: _, [] => false
  | a :: as, b :: bs => a == b && charsAt as bs

/-- Python `s.startswith(p)`. -/
def pyStarts (s p : String) : Bool := charsAt p.toList s.toList

/-- Python `s.endswith(p)`. -/
def pyEnds (s p : String) : Bool := charsAt p.toList.reverse s.toList.reverse

/-- Helper for `strHasSub`. -/
def listHasSub (p : List Char) : List Char → Bool
  | [] => charsAt p []
  | s@(_ :: rest) => charsAt p s || listHasSub p rest

/-- Python `p in s` on strings. -/
def strHasSub (s p : String) : Bool :=
  listHasSub p.toList s.toList

/-- Fuel-indexed core of `pyReplace`; the fuel is the length of the subject,
which always suffices because each step consumes at least one character. -/
def replaceFuel (p r : List Char) : Nat → List Char → List Char
  | _, [] => []
  | 0, s => s
  | Nat.succ fuel, c :: rest =>
    if !p.isEmpty && charsAt p (c :: rest) then
      r ++ replaceFuel p r fuel (List.drop (p.length - 1) rest)
    else c :: replaceFuel p r fuel rest

/-- Python `s.replace(pat, rep)` for non-empty `pat` (the only way the
source uses it): replace each non-overlapping occurrence, left to right. -/
def pyReplace (s pat rep : String) : String :=
  ⟨replaceFuel pat.toList rep.toList s.toList.length s.toList⟩

def splitOnCharAux (sep : Char) : List Char → List Char → List (List Char)
  | [], acc => [acc.reverse]
  | c :: rest, acc =>
    if c == sep then acc.reverse :: splitOnCharAux sep rest []
    else splitOnCharAux sep rest (c :: acc)

/-- Python `s.split(sep)` for a single-character separator. -/
def splitOnChar (s : String) (sep : Char) : List String :=
  (splitOnCharAux sep s.toList []).map (fun l => ⟨l⟩)

def strLen (s : String) : Nat := s.toList.length

/-- Python `s[:n]`. -/
def strTake (s : String) (n : Nat) : String := ⟨s.toList.take n⟩

/-- Python `s[n:]`. -/
def strDrop (s : String) (n : Nat) : String := ⟨s.toList.drop n⟩

/-- Python `s[:-n]` (for `0 < n ≤ len s`). -/
def strDropRight (s : String) (n : Nat) : String :=
  ⟨s.toList.take (s.toList.length - n)⟩

/-- The non-breaking-space character U+00A0 as a string. -/
def nbsp : String := String.singleton (Char.ofNat 0xA0)

/-- Unicode minus sign U+2212 (replaced by `-` in `_to_float`). -/
def minusSign : String := "−"

/-- En dash U+2013 (replaced by `-` in `_to_float`). -/
def enDash : String := "–"

/-- Em dash U+2014 (an "absent" token in `_to_float`). -/
def emDash : String := "—"

/-- ASCII apostrophe, built from its code point. -/
def apos : String := String.singleton (Char.ofNat 39)

/-- Python `re.sub(r"\s+", "", s)`. -/
def stripAllWs (s : String) : String :=
  ⟨s.toList.filter (fun c => !isPySpace c)⟩

def isDigitChar (c : Char) : Bool := '0' ≤ c && c ≤ '9'

def isUpperAlpha (c : Char) : Bool := 'A' ≤ c && c ≤ 'Z'

def digitVal (c : Char) : Nat := c.toNat - 48

/-- Longest digit run at the head of the list, and the rest. -/
def takeDigits : List Char → List Char × List Char
  | [] => ([], [])
  | c :: cs =>
    if isDigitChar c then
      let (d, r) := takeDigits cs
      (c :: d, r)
    else ([], c :: cs)

def digitsToNat (ds : List Char) : Nat :=
  ds.foldl (fun a c => a * 10 + digitVal c) 0

/-! ### Exact number representation

Python floats enter this code only through `_to_float` on decimal text and
are then combined with `+ - * / abs`, so they are modelled as exact rational
values.  Because Batteries marks the `Rat` arithmetic operations
`@[irreducible]`, raw numeric parsing is carried out on reduced fractions
`Parts = (numerator, positive denominator)` — fully kernel-computable — and
interpreted into `ℚ` by `partsToQ` where ordered-field reasoning is needed. -/

/-- A rational value as a reduced fraction: numerator and positive
denominator with no common factor. -/
abbrev Parts := Int × Nat

/-- The rational value of a fraction. -/
def partsToQ (p : Parts) : ℚ := (p.1 : ℚ) / (p.2 : ℚ)

/-- Reduce a fraction to lowest terms. -/
def normParts (n : Int) (d : Nat) : Parts :=
  let g := Nat.gcd n.natAbs d
  (n / (g : Int), d / g)

def digitChar (n : Nat) : Char := Char.ofNat (48 + n)

/-- Decimal digits of `n` (fuel-indexed; `n` itself is always enough fuel). -/
def natDigits : Nat → Nat → List Char
  | 0, _ => []
  | Nat.succ fuel, n =>
    if n < 10 then [digitChar n]
    else natDigits fuel (n / 10) ++ [digitChar (n % 10)]

def natRepr (n : Nat) : String := ⟨natDigits (n + 1) n⟩

def intRepr : Int → String
  | Int.ofNat n => natRepr n
  | Int.negSucc n => "-" ++ natRepr (n + 1)

/-- Python `repr(float)` is a fixed function of the numeric value; it is
modelled as this fixed rendering of the reduced fraction.  All claims about
the trade identity depend only on the serialization being a deterministic
function of the value, which this is. -/
def reprParts (p : Parts) : String :=
  intRepr p.1 ++ "/" ++ natRepr p.2

/-! ### Cell Normalizer (`ingest.py`) -/

/-- Model of Python `float(s)` on the decimal strings this codebase feeds
it: optional sign, then `digits[.digits]` or `.digits`, then an optional
exponent; the result is the exact value as a reduced fraction.  Returns
`none` exactly when `float` raises `ValueError`.  (The `inf`/`nan`/
underscore literals Python also accepts never reach `float` here:
`_to_float` filters `nan`, and broker cells do not use them.) -/
def pyFloatParts (raw : String) : Option Parts :=
  let cs := (pyStrip raw).toList
  let (sign, cs) : Int × List Char :=
    match cs with
    | '+' :: r => (1, r)
    | '-' :: r => (-1, r)
    | _ => (1, cs)
  let (ip, cs) := takeDigits cs
  let (fp, cs) : Option (List Char) × List Char :=
    match cs with
    | '.' :: r =>
      let (f, r2) := takeDigits r
      (some f, r2)
    | _ => (none, cs)
  if ip.isEmpty && (fp.getD []).isEmpty then none
  else
    let frac := fp.getD []
    let n0 : Int := sign * ((digitsToNat ip * 10 ^ frac.length + digitsToNat frac : Nat) : Int)
    let d0 : Nat := 10 ^ frac.length
  match cs with
  | [] => some (normParts n0 d0)
  | e :: r =>
    if e == 'e' || e == 'E' then
      let (esign, r) : Int × List Char :=
        match r with
        | '+' :: r2 => (1, r2)
        | '-' :: r2 => (-1, r2)
        | _ => (1, r)
      let (ed, r) := takeDigits r
      if ed.isEmpty || !r.isEmpty then none
      else
        let ex : Int := esign * (digitsToNat ed : Int)
        if 0 ≤ ex then some (normParts (n0 * (10 ^ ex.toNat : Nat)) d0)
        else some (normParts n0 (d0 * 10 ^ (-ex).toNat))
    else none

/-- Embedding of `_to_float` (ingest.py) at the fraction level.
`none` models both Python `None` input and a `None` result. -/
def toFloatParts (v : Option String) : Option Parts :=
  match v with
  | none => none
  | some raw =>
    let s := pyStrip raw
    if s = "" || pyLower s = "nan" || pyLower s = "none"
        || s = emDash || s = "-" || s = "NM" then none
    else
      let s := pyReplace (pyReplace s minusSign "-") enDash "-"
      let (neg, s) : Bool × String :=
        if pyStarts s "(" && pyEnds s ")" then
          (true, pyStrip (strDropRight (strDrop s 1) 1))
        else (false, s)
      let s := pyStrip (pyReplace (pyReplace s "$" "") "," "")
      let s := if pyStarts s "+" then pyStrip (strDrop s 1) else s
      let s := pyStrip (pyReplace s "%" "")
      match pyFloatParts s with
      | none => none
      | some x => some (if neg then (-x.1, x.2) else x)

/-- `_to_float` as a rational-valued parser (the interpretation of
`toFloatParts` in `ℚ`). -/
def toFloat (v : Option String) : Option ℚ :=
  (toFloatParts v).map partsToQ

/-- Embedding of `TICKER_RE.fullmatch`: `^[A-Z]{1,7}(?:\.[A-Z]{1,3})?$`. -/
def tickerRe (s : String) : Bool :=
  match splitOnChar s '.' with
  | [a] =>
      1 ≤ strLen a && strLen a ≤ 7 && a.toList.all isUpperAlpha
  | [a, b] =>
      1 ≤ strLen a && strLen a ≤ 7 && a.toList.all isUpperAlpha
        && 1 ≤ strLen b && strLen b ≤ 3 && b.toList.all isUpperAlpha
  | _ => false

/-- The normalization prefix of `_clean_symbol`: replace U+00A0 by a space,
strip, uppercase. -/
def symNorm (raw : String) : String :=
  pyUpper (pyStrip (pyReplace raw nbsp " "))

/-- Characters kept by `_clean_symbol`'s `re.sub(r"[^A-Z0-9\.\*]", "", s)`. -/
def cleanSymbolKeep (c : Char) : Bool :=
  isUpperAlpha c || isDigitChar c || c == '.' || c == '*'

/-- Embedding of `_clean_symbol` (ingest.py). -/
def cleanSymbol (raw : String) : String :=
  let s := symNorm raw
  if s = "" then ""
  else if pyEnds s "**" then stripAllWs s
  else pyStrip ⟨s.toList.filter cleanSymbolKeep⟩

/-- Embedding of `_looks_like_symbol` (ingest.py). -/
def looksLikeSymbol (sym : String) : Bool :=
  if sym = "" then false
  else
    let s := pyUpper (pyStrip sym)
    if pyEnds s "**" then true
    else tickerRe s

/-- Embedding of `_is_cash_like_ticker` (portfolio.py). -/
def isCashLikeTicker (t : String) : Bool :=
  let t := pyStrip (pyUpper t)
  t ≠ "" && pyEnds t "**"

/-! ### Date parsing -/

/-- Proleptic Gregorian leap year, as Python `datetime` uses. -/
def isLeap (y : Nat) : Bool :=
  (y % 4 == 0 && y % 100 != 0) || y % 400 == 0

def daysInMonth (y m : Nat) : Nat :=
  if m = 2 then (if isLeap y then 29 else 28)
  else if m = 4 || m = 6 || m = 9 || m = 11 then 30
  else 31

/-- Split a 10-character `YYYY-MM-DD` shaped string into numeric parts;
`none` when the shape is wrong.  This is the shape accepted by
`ISO_DATE_RE` (`^\d{4}-\d{2}-\d{2}$`). -/
def isoParts (s : String) : Option (Nat × Nat × Nat) :=
  match s.toList with
  | [y1, y2, y3, y4, h1, m1, m2, h2, d1, d2] =>
    if h1 == '-' && h2 == '-'
        && isDigitChar y1 && isDigitChar y2 && isDigitChar y3 && isDigitChar y4
        && isDigitChar m1 && isDigitChar m2 && isDigitChar d1 && isDigitChar d2 then
      some (digitsToNat [y1, y2, y3, y4], digitsToNat [m1, m2], digitsToNat [d1, d2])
    else none
  | _ => none

/-- `ISO_DATE_RE.match(s)` as a Bool (the regex is fully anchored). -/
def isoShape (s : String) : Bool := (isoParts s).isSome

/-- Embedding of `_parse_iso_date` (portfolio.py): `datetime.fromisoformat`
on the first 10 characters, yielding the date (kept as its ISO string) only
when it is a valid calendar date. -/
def parseIsoDate (d : String) : Option String :=
  if strLen d < 10 then none
  else
    let s := strTake d 10
    match isoParts s with
    | some (y, m, dd) =>
      if 1 ≤ y && 1 ≤ m && m ≤ 12 && 1 ≤ dd && dd ≤ daysInMonth y m then some s
      else none
    | none => none

def pad2 (n : Nat) : String :=
  if n < 10 then "0" ++ toString n else toString n

def pad4 (n : Nat) : String :=
  if n < 10 then "000" ++ toString n
  else if n < 100 then "00" ++ toString n
  else if n < 1000 then "0" ++ toString n
  else toString n

/-- The `M/D/YYYY` branch of `_parse_run_date_cell`:
`^(\d{1,2})/(\d{1,2})/(\d{4})$` with `1 ≤ mm ≤ 12` and `1 ≤ dd ≤ 31`,
formatted back as `f"{yy:04d}-{mm:02d}-{dd:02d}"`. -/
def parseMDY (s : String) : Option String :=
  match splitOnChar s '/' with
  | [m, d, y] =>
    if 1 ≤ strLen m && strLen m ≤ 2 && m.toList.all isDigitChar
        && 1 ≤ strLen d && strLen d ≤ 2 && d.toList.all isDigitChar
        && strLen y = 4 && y.toList.all isDigitChar then
      let mm := digitsToNat m.toList
      let dd := digitsToNat d.toList
      let yy := digitsToNat y.toList
      if 1 ≤ mm && mm ≤ 12 && 1 ≤ dd && dd ≤ 31 then
        some (pad4 yy ++ "-" ++ pad2 mm ++ "-" ++ pad2 dd)
      else none
    else none
  | _ => none

/-- Embedding of `_parse_run_date_cell` (ingest.py) on string cells (the
table loader reads every cell as a string, so the `datetime`-instance branch
never fires). -/
def parseRunDateCell (v : Option String) : Option String :=
  match v with
  | none => none
  | some raw =>
    let s := pyStrip raw
    if s = "" then none
    else if isoShape (strTake s 10) then some (strTake s 10)
    else
      match parseMDY s with
      | some d => some d
      | none =>
        if 10 ≤ strLen s && isoShape (strTake s 10) then some (strTake s 10)
        else none

/-- Embedding of `_action_side` (ingest.py). -/
def actionSide (action : String) : Option String :=
  let a := pyLower (pyStrip action)
  if pyStarts a "you bought" then some "BUY"
  else if pyStarts a "you sold" then some "SELL"
  else none

/-! ### Trade Ledger Writer (`ingest_activity`, ingest.py)

An activity row is the tuple of raw cells the endpoint reads; a cell is
`none` when the corresponding column was not detected (then the code skips
parsing it).  The `activity_trades` Mongo collection becomes a list of
`TradeDoc`; `update_one(..., upsert=True)` becomes `upsertOne`. -/

structure ActivityRow where
  runDate : String
  action : String
  symbol : String
  desc : Option String
  price : Option String
  qty : Option String
  fees : Option String
  settle : Option String
deriving DecidableEq

/-- Upload-level provenance written into each document. -/
structure SourceCtx where
  filename : String
  sha256 : String
deriving DecidableEq

/-- The values `ingest_activity` extracts from one row before building the
document: exactly the local variables of the loop body. -/
structure RowFields where
  tradeDate : String
  side : String
  sym : String
  qtyAbs : Parts
  price : Option Parts
  fees : Option Parts
  settle : Option String
  action : String
  desc : String
deriving DecidableEq

/-- Row-level extraction and skip logic of the `ingest_activity` loop, in
source order: unknown action, unparseable date, non-symbol-shaped ticker,
and missing/zero quantity are each skipped (`none`). -/
def rowTradeFields (r : ActivityRow) : Option RowFields :=
  let action := pyStrip r.action
  match actionSide action with
  | none => none
  | some side =>
  match parseRunDateCell (some r.runDate) with
  | none => none
  | some td =>
  let sym := cleanSymbol (pyStrip r.symbol)
  if sym = "" || !looksLikeSymbol sym then none
  else
  let desc := pyStrip (r.desc.getD "")
  let price := toFloatParts r.price
  let qty := toFloatParts r.qty
  let fees := toFloatParts r.fees
  let settle := parseRunDateCell r.settle
  match qty with
  | none => none
  | some q =>
    if q.1 = 0 then none
    else some { tradeDate := td, side := side, sym := sym,
                qtyAbs := (q.1.natAbs, q.2), price := price, fees := fees,
                settle := settle, action := action, desc := desc }

/-- The seven normalized values that feed the identity hash, in the order
they are interpolated into `trade_key`:
`f"{trade_date}|{side}|{sym}|{qty_abs}|{price or ''}|{settle_date or ''}|{action.lower()}"`. -/
structure IdentityFields where
  tradeDate : String
  side : String
  sym : String
  qtyAbs : Parts
  priceOrEmpty : String
  settleOrEmpty : String
  actionLower : String
deriving DecidableEq

/-- Python `{price or ''}` on an optional float: `None` and `0.0` both
render as the empty string (`0.0` is falsy). -/
def pyOrEmptyNum (p : Option Parts) : String :=
  match p with
  | none => ""
  | some x => if x.1 = 0 then "" else reprParts x

/-- The identity projection of the extracted row values. -/
def identityFields (f : RowFields) : IdentityFields :=
  { tradeDate := f.tradeDate, side := f.side, sym := f.sym,
    qtyAbs := f.qtyAbs, priceOrEmpty := pyOrEmptyNum f.price,
    settleOrEmpty := f.settle.getD "", actionLower := pyLower f.action }

/-- The `trade_key` string. -/
def tradeKey (f : RowFields) : String :=
  let i := identityFields f
  i.tradeDate ++ "|" ++ i.side ++ "|" ++ i.sym ++ "|" ++ reprParts i.qtyAbs
    ++ "|" ++ i.priceOrEmpty ++ "|" ++ i.settleOrEmpty ++ "|" ++ i.actionLower

/-- `trade_id = hashlib.sha256(trade_key.encode()).hexdigest()[:24]`.
SHA-256-hex-24 is a fixed deterministic function of the key string; every
claim proved here concerns only the identities induced by key equality, so
the hash is modelled as the key itself (composing any fixed function on top
preserves every theorem below). -/
def tradeId (f : RowFields) : String := tradeKey f

/-- A document of the `activity_trades` collection: the `$set` payload of
the upsert (the `$setOnInsert` `created_at` is never compared or read by
the code under verification and is omitted). -/
structure TradeDoc where
  trade_id : String
  trade_date : String
  settlement_date : Option String
  side : String
  ticker : String
  description : Option String
  qty : Parts
  price : Option Parts
  fees : Option Parts
  value_est : Option Parts
  src_filename : String
  src_sha256 : String
  src_action_raw : String
  updated_at : Nat
deriving DecidableEq

/-- Multiplication of reduced fractions (used for `value_est`). -/
def mulParts (a b : Parts) : Parts :=
  normParts (a.1 * b.1) (a.2 * b.2)

/-- The document built for one extracted row (`doc = {...}` in the loop);
`updated_at` is the upload call's timestamp. -/
def buildDoc (ctx : SourceCtx) (t : Nat) (f : RowFields) : TradeDoc :=
  { trade_id := tradeId f
    trade_date := f.tradeDate
    settlement_date := f.settle
    side := f.side
    ticker := f.sym
    description := if f.desc = "" then none else some f.desc
    qty := f.qtyAbs
    price := f.price
    fees := f.fees
    value_est := f.price.map (fun p => mulParts p f.qtyAbs)
    src_filename := ctx.filename
    src_sha256 := ctx.sha256
    src_action_raw := f.action
    updated_at := t }

/-- `update_one({"trade_id": id}, {"$set": doc, ...}, upsert=True)` and the
`written` test `res.upserted_id is not None or res.modified_count > 0`:
no match inserts (and counts as written); a match replaces the matched
document's `$set` fields and counts as written exactly when some stored
field actually changed. -/
def upsertOne (L : List TradeDoc) (d : TradeDoc) : List TradeDoc × Bool :=
  match L.find? (fun x => x.trade_id == d.trade_id) with
  | none => (L ++ [d], true)
  | some old =>
    (L.map (fun x => if x.trade_id == d.trade_id then d else x), old ≠ d)

structure IngestState where
  ledger : List TradeDoc
  written : Nat
  skipped : Nat
  seen : Nat
deriving DecidableEq

/-- One iteration of the `ingest_activity` row loop. -/
def ingestStep (ctx : SourceCtx) (t : Nat) (s : IngestState) (r : ActivityRow) :
    IngestState :=
  match rowTradeFields r with
  | none =>
    { s with seen := s.seen + 1, skipped := s.skipped + 1 }
  | some f =>
    let d := buildDoc ctx t f
    let (L, wrote) := upsertOne s.ledger d
    { ledger := L, written := s.written + (if wrote then 1 else 0),
      skipped := s.skipped, seen := s.seen + 1 }

/-- `ingest_activity` on an already-loaded table: fold the row loop over the
rows, starting from the ledger contents `L0` (counters start at zero for
each call, as in the endpoint). -/
def ingestActivity (ctx : SourceCtx) (t : Nat) (rows : List ActivityRow)
    (L0 : List TradeDoc) : IngestState :=
  rows.foldl (ingestStep ctx t) { ledger := L0, written := 0, skipped := 0, seen := 0 }

/-- The extracted fields of the rows that survive the skip logic. -/
def validFields (rows : List ActivityRow) : List RowFields :=
  rows.filterMap rowTradeFields

/-- The trade identities of the valid rows. -/
def validIds (rows : List ActivityRow) : List String :=
  (validFields rows).map tradeId

/-- The documents a first upload at time `t` stores, in row order. -/
def validDocs (ctx : SourceCtx) (t : Nat) (rows : List ActivityRow) : List TradeDoc :=
  (validFields rows).map (buildDoc ctx t)

/-! ### Position Lifecycle Engine
(`_opened_at_map_from_activity_trades`, portfolio.py)

The replay loop is modelled over the rows returned by the (date-window and
ticker restricted) query, already sorted ascending by
`(trade_date, created_at)`.  The per-ticker running quantity and the
`opened_at` dictionary become total functions with defaults `0` and `none`
(`pos_qty.get(t, 0.0)`; deleting a key sets it back to `none`). -/

structure LRow where
  ticker : String
  side : String
  qty : ℚ
  tradeDate : String

structure LState where
  posQty : String → ℚ
  openedAt : String → Option String

def initLState : LState := { posQty := fun _ => 0, openedAt := fun _ => none }

def updFn {α : Type} (f : String → α) (k : String) (v : α) : String → α :=
  fun x => if x = k then v else f x

/-- `ticker_filter` after the normalization at the top of the function:
upper/strip, drop empties and cash-like tickers. -/
def normFilter (only : Option (List String)) : Option (List String) :=
  match only with
  | none => none
  | some ts =>
    some (((ts.map (fun t => pyStrip (pyUpper t))).filter
      (fun t => t ≠ "" && !isCashLikeTicker t)))

/-- The epsilon `1e-9` of the replay loop. -/
def lifecycleEps : ℚ := 1 / 1000000000

def lrowTicker (r : LRow) : String := pyStrip (pyUpper r.ticker)

def lrowSide (r : LRow) : String := pyStrip (pyUpper r.side)

/-- `ticker_filter is not None and t not in ticker_filter` — the row-level
filter skip condition. -/
def lfiltSkips (filt : Option (List String)) (t : String) : Bool :=
  match filt with
  | some ts => !ts.contains t
  | none => false

/-- One iteration of the replay loop (portfolio.py lines 264-309). -/
def lifecycleStep (filt : Option (List String)) (s : LState) (r : LRow) : LState :=
  let t := lrowTicker r
  if t = "" || isCashLikeTicker t then s
  else if lfiltSkips filt t then s
  else
    let side := lrowSide r
    if side = "BUY" || side = "SELL" then
      match parseIsoDate r.tradeDate with
      | none => s
      | some dt =>
        let q := |r.qty|
        if q ≤ 0 then s
        else
          let prev := s.posQty t
          if side = "BUY" then
            let nw := prev + q
            { posQty := updFn s.posQty t nw
              openedAt :=
                if prev ≤ 0 ∧ 0 < nw then updFn s.openedAt t (some dt)
                else s.openedAt }
          else
            if prev ≤ 0 then { s with posQty := updFn s.posQty t 0 }
            else
              let nw0 := prev - q
              let nw := if nw0 < lifecycleEps then 0 else nw0
              { posQty := updFn s.posQty t nw
                openedAt := if nw = 0 then updFn s.openedAt t none else s.openedAt }
    else s

/-- The full replay: `{}` immediately when a supplied ticker filter
normalizes to the empty set, otherwise fold the loop. -/
def openedAtReplay (only : Option (List String)) (rows : List LRow) : LState :=
  match normFilter only with
  | some [] => initLState
  | filt => rows.foldl (lifecycleStep filt) initLState

/-! ### Closed-Trade Matcher (`closed_trades`, closed_trades.py)

The aggregation pipeline groups SELL rows of `activity_trades` by
`(trade_date, ticker)` with `qty_sold = Σ qty` and
`proceeds = Σ price*qty` (0 for rows with a null price or qty); the prior
snapshot lookup is a store query.  The per-sell-day decision (lines 69-118)
is modelled as a function of the grouped values and of the prior snapshot
data `(as_of, prev_qty, avg_cost)` found for the ticker (`none` when no
earlier snapshot contains it).  The `opened_at`/`days_held` fields are
resolved by the Position Lifecycle Engine modelled above and are not part
of the record here. -/

structure ClosedRow where
  ticker : String
  close_date : String
  qty : ℚ
  avg_cost : Option ℚ
  sell_price : Option ℚ
  proceeds : ℚ
  cost_basis : ℚ
  pnl_dollars : ℚ
  pnl_pct : Option ℚ
  prev_snapshot_as_of : String

/-- The tolerance `tol = 1e-6` of the full-close test. -/
def closeTol : ℚ := 1 / 1000000

/-- The per-sell-day body of the `closed_trades` loop. -/
def sellDayRecord (tradeDateRaw tickerRaw : String) (qtySold proceeds : ℚ)
    (prev : Option (String × ℚ × ℚ)) : Option ClosedRow :=
  let trade_date := strTake tradeDateRaw 10
  let ticker := pyStrip (pyUpper tickerRaw)
  if trade_date = "" || ticker = "" || isCashLikeTicker ticker then none
  else if qtySold ≤ 0 then none
  else
    match prev with
    | none => none
    | some (prevAsOf, prevQty, avgCost) =>
      if qtySold + closeTol < prevQty then none
      else
        let closedQty := if 0 < prevQty then prevQty else qtySold
        let sellPrice := if 0 < qtySold then some (proceeds / qtySold) else none
        let costBasis := avgCost * closedQty
        let pnl := proceeds - costBasis
        some { ticker := ticker, close_date := trade_date, qty := closedQty,
               avg_cost := if avgCost = 0 then none else some avgCost,
               sell_price := sellPrice, proceeds := proceeds,
               cost_basis := costBasis, pnl_dollars := pnl,
               pnl_pct := if 0 < costBasis then some (pnl / costBasis) else none,
               prev_snapshot_as_of := strTake prevAsOf 10 }

/-! ### Snapshot Builder (`ingest_positions`, ingest.py)

A `PRow` carries the raw cells of one table row under the detected columns;
a cell is `none` when that column was not detected (the code then never
parses it). -/

structure PRow where
  symbol : String
  desc : Option String
  qty : Option String
  price : Option String
  value : Option String
  avg : Option String
  day : Option String
  total : Option String
  weight : Option String
  cost : Option String
deriving DecidableEq

/-- One parsed position.  In the source every numeric field is written
under two key names with the same value (`market_value`/`value`,
`avg_cost`/`avg`, ...); each pair is one field here. -/
structure Position where
  ticker : String
  name : String
  quantity : ℚ
  is_strict_ticker : Bool
  last_price : Option ℚ
  market_value : Option ℚ
  avg_cost : Option ℚ
  cost_value : Option ℚ
  todays_gain_loss : Option ℚ
  total_gain_loss : Option ℚ
  weight_pct : Option ℚ

/-- The disclaimer phrase list of `_is_disclaimer_row`. -/
def badPhrases : List String :=
  [ "provided to you solely for your use"
  , "not for distribution"
  , "informational purposes only"
  , "not intended to provide advice"
  , "should not be used in place of your account statements"
  , "for more information on the data included"
  , "brokerage services are provided"
  , "members sipc"
  , "fidelity.com"
  , "date downloaded"
  , "custody and other services provided" ]

/-- Embedding of `_is_disclaimer_row` (ingest.py). -/
def isDisclaimerRow (sym desc : String) : Bool :=
  let blob := pyLower (pyStrip (sym ++ " " ++ desc))
  if blob = "" then true
  else badPhrases.any (fun p => strHasSub blob p)

/-- The pending-row test of the `ingest_positions` loop:
`sym_norm == "PENDING" or "pending" in sym_raw.lower()` — it inspects only
the symbol cell. -/
def pendingRowTest (symRaw : String) : Bool :=
  pyUpper (pyStrip symRaw) = "PENDING" || strHasSub (pyLower symRaw) "pending"

/-- Outcome of one row of the `ingest_positions` loop. -/
inductive PosRowOutcome
  | pending (amt : ℚ)
  | skip
  | keep (p : Position)

/-- The body of the `ingest_positions` row loop (ingest.py lines 596-662). -/
def processPosRow (r : PRow) : PosRowOutcome :=
  let symRaw := pyStrip r.symbol
  let descRaw := pyStrip (r.desc.getD "")
  if pendingRowTest symRaw then
    .pending ((toFloat r.value).getD 0)
  else
    let sym := cleanSymbol symRaw
    if isDisclaimerRow sym descRaw then .skip
    else if !looksLikeSymbol sym then .skip
    else
      .keep { ticker := sym
              name := if descRaw = "" then emDash else descRaw
              quantity := (toFloat r.qty).getD 0
              is_strict_ticker := pyEnds sym "**" || tickerRe sym
              last_price := toFloat r.price
              market_value := toFloat r.value
              avg_cost := toFloat r.avg
              cost_value := toFloat r.cost
              todays_gain_loss := toFloat r.day
              total_gain_loss := toFloat r.total
              weight_pct := toFloat r.weight }

/-- The row loop: collected positions (in row order) and the accumulated
`pending_amount`. -/
def ingestPositionsCore (rows : List PRow) : List Position × ℚ :=
  rows.foldl
    (fun acc r =>
      match processPosRow r with
      | .pending a => (acc.1, acc.2 + a)
      | .skip => acc
      | .keep p => (acc.1 ++ [p], acc.2))
    ([], 0)

/-- `p.get("market_value") or p.get("value") or 0`: both keys always hold
the same number, and the Python `or` chain yields `0` exactly when that
number is `0` or both keys are absent. -/
def posValue (p : Position) : ℚ := p.market_value.getD 0

def positionsTotalValue (ps : List Position) : ℚ := (ps.map posValue).sum

/-- Sum of position values over tickers not ending in `**`. -/
def nonCashValue (ps : List Position) : ℚ :=
  ((ps.filter (fun p => !pyEnds p.ticker "**")).map posValue).sum

/-- Sum of position values over `**`-suffixed (cash-like) tickers. -/
def cashValue (ps : List Position) : ℚ :=
  ((ps.filter (fun p => pyEnds p.ticker "**")).map posValue).sum

/-- The snapshot document written by `ingest_positions` (aggregate fields;
`none` models the `"Parsed zero positions"` HTTP 400 abort). -/
structure SnapshotDoc where
  as_of : String
  positions : List Position
  non_cash_positions_value : ℚ
  total_value : ℚ
  todays_pnl_total : ℚ
  cash_spaxx : ℚ
  pending_amount : ℚ

/-- `ingest_positions` after table load and column detection. -/
def ingestPositions (asOf : String) (rows : List PRow) : Option SnapshotDoc :=
  let res := ingestPositionsCore rows
  if res.1.isEmpty then none
  else
    some { as_of := asOf
           positions := res.1
           non_cash_positions_value := nonCashValue res.1
           total_value := positionsTotalValue res.1 + res.2
           todays_pnl_total := (res.1.map (fun p => p.todays_gain_loss.getD 0)).sum
           cash_spaxx := 0
           pending_amount := res.2 }

/-! ### Schema Detector shift repair
(`_ticker_like_rate`, `_repair_shift_if_needed`, ingest.py) -/

/-- A loaded table: named columns with their cell values in row order. -/
structure Table where
  cols : List (String × List String)

def columnNames (df : Table) : List String := df.cols.map Prod.fst

def getCol (df : Table) (name : String) : List String :=
  (((df.cols.find? (fun c => c.1 == name))).map Prod.snd).getD []

/-- Number of sampled values (first 80) with a non-empty cleaned symbol. -/
def tickerSeenCount (vals : List String) : Nat :=
  ((vals.take 80).filter (fun v => cleanSymbol v ≠ "")).length

/-- Number of sampled values that additionally look like a symbol. -/
def tickerGoodCount (vals : List String) : Nat :=
  ((vals.take 80).filter
    (fun v => cleanSymbol v ≠ "" && looksLikeSymbol (cleanSymbol v))).length

/-- Embedding of `_ticker_like_rate` (ingest.py). -/
def tickerLikeRate (vals : List String) : ℚ :=
  if tickerSeenCount vals = 0 then 0
  else (tickerGoodCount vals : ℚ) / (tickerSeenCount vals : ℚ)

/-- The detected-column map for a positions table (`None` = undetected). -/
structure ColsMap where
  symbol : Option String
  desc : Option String
  qty : Option String
  price : Option String
  value : Option String
  cost : Option String
  avg : Option String
  day : Option String
  total : Option String
  weight : Option String
deriving DecidableEq

def colTodaysGLDollar : String := "Today" ++ apos ++ "s Gain/Loss Dollar"

def colTodaysGLPercent : String := "Today" ++ apos ++ "s Gain/Loss Percent"

/-- Embedding of `_repair_shift_if_needed` (ingest.py lines 439-462). -/
def repairShiftIfNeeded (df : Table) (cols : ColsMap) : ColsMap :=
  match cols.symbol with
  | none => cols
  | some symCol =>
    if !(columnNames df).contains "Account Name" then cols
    else
      let symRate := tickerLikeRate (getCol df symCol)
      let acctRate := tickerLikeRate (getCol df "Account Name")
      if symRate < 15 / 100 ∧ acctRate > 40 / 100 then
        { symbol := some "Account Name"
          desc := if (columnNames df).contains "Symbol" then some "Symbol" else cols.desc
          qty := if (columnNames df).contains "Description" then some "Description" else cols.qty
          price := if (columnNames df).contains "Quantity" then some "Quantity" else cols.price
          value := if (columnNames df).contains "Last Price Change" then some "Last Price Change" else cols.value
          day := if (columnNames df).contains "Current Value" then some "Current Value" else cols.day
          total := if (columnNames df).contains colTodaysGLPercent then some colTodaysGLPercent else cols.total
          weight := if (columnNames df).contains "Total Gain/Loss Percent" then some "Total Gain/Loss Percent" else cols.weight
          cost := if (columnNames df).contains "Percent Of Account" then some "Percent Of Account" else cols.cost
          avg := if (columnNames df).contains "Cost Basis Total" then some "Cost Basis Total" else cols.avg }
      else cols

/-- The column immediately following `c` in a column-name list. -/
def colAfter : List String → String → Option String
  | a :: b :: rest, c => if a == c then some b else colAfter (b :: rest) c
  | _, _ => none

/-- The column layout of the standard positions export, as witnessed by the
exact-match labels of `_pick_columns_for_positions` together with the
hard-coded remap targets of `_repair_shift_if_needed`. -/
def stdPositionsHeaders : List String :=
  [ "Account Number", "Account Name", "Symbol", "Description", "Quantity"
  , "Last Price", "Last Price Change", "Current Value"
  , colTodaysGLDollar, colTodaysGLPercent
  , "Total Gain/Loss Dollar", "Total Gain/Loss Percent"
  , "Percent Of Account", "Cost Basis Total", "Average Cost Basis" ]

/-! ### Concrete inputs used by counterexamples and witnesses -/

/-- A valid SELL activity row (all columns detected). -/
def rowSellAAPL : ActivityRow :=
  { runDate := "9/18/2025", action := "YOU SOLD AAPL", symbol := "AAPL"
  , desc := some "APPLE INC", price := some "150.00", qty := some "10"
  , fees := some "0.05", settle := some "9/20/2025" }

/-- A valid BUY activity row. -/
def rowBuyMSFT : ActivityRow :=
  { runDate := "9/17/2025", action := "YOU BOUGHT MSFT", symbol := "MSFT"
  , desc := some "MICROSOFT CORP", price := some "500.10", qty := some "2"
  , fees := none, settle := some "9/19/2025" }

/-- Upload provenance for the example file. -/
def ctxA : SourceCtx := { filename := "activity.csv", sha256 := "abc123" }

/-- Same provenance content uploaded under another filename. -/
def ctxB : SourceCtx := { filename := "activity-again.csv", sha256 := "def456" }

/-- A BUY row whose price cell parses to exactly `0.0`. -/
def rowBuyZeroPrice : ActivityRow :=
  { runDate := "9/18/2025", action := "YOU BOUGHT XOM", symbol := "XOM"
  , desc := some "EXXON MOBIL", price := some "0.00", qty := some "3"
  , fees := none, settle := none }

/-- The same row with no parseable price at all. -/
def rowBuyNoPrice : ActivityRow :=
  { rowBuyZeroPrice with price := some "" }

/-- The same logical trade as `rowSellAAPL`, exported differently: ISO run
date, cased action text, padded symbol, currency-formatted price, signed
quantity, no description, no fees. -/
def rowSellAAPL2 : ActivityRow :=
  { runDate := "2025-09-18", action := "You sold AAPL", symbol := " aapl "
  , desc := none, price := some "$150.00", qty := some "-10"
  , fees := none, settle := some "9/20/2025" }

/-- A SELL replay row for ticker XYZ with no prior BUY. -/
def lrowSellXYZ : LRow :=
  { ticker := "XYZ", side := "SELL", qty := 10, tradeDate := "2025-03-04" }

/-- A BUY replay row for ticker XYZ. -/
def lrowBuyXYZ : LRow :=
  { ticker := "XYZ", side := "BUY", qty := 10, tradeDate := "2025-03-01" }

/-- The record the Closed-Trade Matcher emits for a full-exit SELL of 100
shares at a day-total of 1100 against a prior snapshot of 100 shares at
average cost 10. -/
def c4rec : ClosedRow :=
  { ticker := "AAPL", close_date := "2025-09-18", qty := 100, avg_cost := some 10
  , sell_price := some 11, proceeds := 1100, cost_basis := 1000
  , pnl_dollars := 100, pnl_pct := some (1 / 10), prev_snapshot_as_of := "2025-09-10" }

/-- A positions row holding the cash-equivalent `SPAXX**` sweep. -/
def prowSpaxx : PRow :=
  { symbol := "SPAXX**", desc := some "FIDELITY GOVERNMENT MONEY MARKET"
  , qty := some "100", price := some "1.00", value := some "100.00"
  , avg := none, day := none, total := none, weight := none, cost := none }

/-- An ordinary equity positions row. -/
def prowAapl : PRow :=
  { symbol := "AAPL", desc := some "APPLE INC"
  , qty := some "1", price := some "50.00", value := some "50.00"
  , avg := some "40.00", day := none, total := none, weight := none, cost := none }

/-- A row whose description (not symbol) contains the token "pending". -/
def prowDescPending : PRow :=
  { symbol := "AAPL", desc := some "Pending settlement"
  , qty := some "5", price := none, value := some "50.00"
  , avg := none, day := none, total := none, weight := none, cost := none }

/-- The canonical pending row: symbol cell "Pending Activity", value -500. -/
def prowPendingActivity : PRow :=
  { symbol := "Pending Activity", desc := none
  , qty := none, price := none, value := some "-500.00"
  , avg := none, day := none, total := none, weight := none, cost := none }

/-- The parsed position for `prowSpaxx`. -/
def posSpaxx : Position :=
  { ticker := "SPAXX**", name := "FIDELITY GOVERNMENT MONEY MARKET"
  , quantity := 100, is_strict_ticker := true, last_price := some 1
  , market_value := some 100, avg_cost := none, cost_value := none
  , todays_gain_loss := none, total_gain_loss := none, weight_pct := none }

/-- The parsed position for `prowAapl`. -/
def posAapl : Position :=
  { ticker := "AAPL", name := "APPLE INC"
  , quantity := 1, is_strict_ticker := true, last_price := some 50
  , market_value := some 50, avg_cost := some 40, cost_value := none
  , todays_gain_loss := none, total_gain_loss := none, weight_pct := none }

/-- A shifted positions table in the standard column layout: the symbol
data sits under the "Account Name" label. -/
def dfShifted : Table :=
  { cols :=
      [ ("Account Number", ["123456789"])
      , ("Account Name", ["AAPL"])
      , ("Symbol", ["APPLE INC"])
      , ("Description", ["10"])
      , ("Quantity", ["150.00"])
      , ("Last Price", ["1500.00"])
      , ("Last Price Change", ["1500.00"])
      , ("Current Value", ["5.00"])
      , (colTodaysGLDollar, ["100.00"])
      , (colTodaysGLPercent, ["1.1"])
      , ("Total Gain/Loss Dollar", ["300.00"])
      , ("Total Gain/Loss Percent", ["25.0"])
      , ("Percent Of Account", ["10.0"])
      , ("Cost Basis Total", ["1200.00"])
      , ("Average Cost Basis", ["120.00"]) ] }

/-- The column map detection produces on the standard layout (exact-name
matches throughout). -/
def colsStd : ColsMap :=
  { symbol := some "Symbol", desc := some "Description", qty := some "Quantity"
  , price := some "Last Price", value := some "Current Value"
  , cost := some "Cost Basis Total", avg := some "Average Cost Basis"
  , day := some colTodaysGLDollar, total := some "Total Gain/Loss Dollar"
  , weight := some "Percent Of Account" }

end Trading

namespace Trading

/-! ### Helper lemmas -/

theorem toList_mk (l : List Char) : (⟨l⟩ : String).toList = l := rfl

theorem all_dropWhileList {p q : Char → Bool} {l : List Char}
    (h : l.all p = true) : (dropWhileList q l).all p = true := by
  induction l with
  | nil => simp [dropWhileList]
  | cons c cs ih =>
    simp only [List.all_cons, Bool.and_eq_true] at h
    simp only [dropWhileList]
    split
    · exact ih h.2
    · simp [List.all_cons, h.1, h.2]

theorem all_pyStrip {p : Char → Bool} {s : String}
    (h : s.toList.all p = true) : (pyStrip s).toList.all p = true := by
  unfold pyStrip
  rw [toList_mk]
  apply all_dropWhileList
  rw [List.all_reverse]
  apply all_dropWhileList
  rw [List.all_reverse]
  exact h

theorem all_filter_self (p : Char → Bool) (l : List Char) :
    (l.filter p).all p = true := by
  induction l with
  | nil => rfl
  | cons c cs ih =>
    by_cases h : p c = true <;> simp [List.filter_cons, h, ih]

/-! ### C8 -/

/-- C8 counterexample: the claim asserts `clean_symbol` keeps characters in
`[A-Z0-9.*-]` and that "BRK-B" survives with its hyphen and is accepted by
`looks_like_symbol`.  In the code the kept set is `[A-Z0-9.*]` (no hyphen)
and `TICKER_RE` admits only `.`-separated suffixes, so "BRK-B" is cleaned
to "BRKB" and "BRK-B" itself is rejected. -/
theorem clean_symbol_hyphen_counterexample :
    cleanSymbol "BRK-B" = "BRKB"
    ∧ strHasSub (cleanSymbol "BRK-B") "-" = false
    ∧ looksLikeSymbol "BRK-B" = false := by
  decide

/-- C8 (amended): `clean_symbol` uppercases and strips, preserves
`**`-ending tickers with whitespace removed, and otherwise removes exactly
the characters outside `[A-Z0-9.*]` — the hyphen is removed;
`looks_like_symbol` is true exactly for strings ending in `**` or matching
1-7 letters with an optional `.`-separated 1-3 letter suffix.  "BRK-B"
therefore loses its hyphen, becoming "BRKB", which is accepted, while
"BRK-B" itself is not. -/
theorem clean_symbol_amended :
    (∀ raw : String, pyEnds (symNorm raw) "**" = false →
        (cleanSymbol raw).toList.all cleanSymbolKeep = true)
    ∧ (∀ raw : String, symNorm raw ≠ "" → pyEnds (symNorm raw) "**" = true →
        cleanSymbol raw = stripAllWs (symNorm raw))
    ∧ (∀ s : String, looksLikeSymbol s = true ↔
        (s ≠ "" ∧ (pyEnds (pyUpper (pyStrip s)) "**" = true
          ∨ tickerRe (pyUpper (pyStrip s)) = true)))
    ∧ cleanSymbol "BRK-B" = "BRKB"
    ∧ looksLikeSymbol "BRKB" = true
    ∧ looksLikeSymbol "BRK-B" = false
    ∧ looksLikeSymbol "BRK.B" = true
    ∧ looksLikeSymbol "AAPL" = true
    ∧ looksLikeSymbol "SPAXX**" = true
    ∧ looksLikeSymbol "ABCDEFGH" = false
    ∧ looksLikeSymbol "BRK.BBBB" = false
    ∧ cleanSymbol " brk-b " = "BRKB" := by
  refine ⟨?_, ?_, ?_, by decide, by decide, by decide, by decide, by decide,
    by decide, by decide, by decide, by decide⟩
  · intro raw h
    by_cases hs : symNorm raw = ""
    · simp [cleanSymbol, hs]
    · simp only [cleanSymbol]
      rw [if_neg hs, if_neg (by simp [h])]
      exact all_pyStrip (by rw [toList_mk]; exact all_filter_self _ _)
  · intro raw h1 h2
    simp only [cleanSymbol]
    rw [if_neg h1, if_pos h2]
  · intro s
    by_cases hs : s = ""
    · subst hs
      simp [looksLikeSymbol]
    · simp only [looksLikeSymbol]
      rw [if_neg hs]
      constructor
      · intro h
        refine ⟨hs, ?_⟩
        by_cases hb : pyEnds (pyUpper (pyStrip s)) "**" = true
        · exact Or.inl hb
        · right
          simpa [hb] using h
      · intro ⟨_, h⟩
        rcases h with h | h
        · simp [h]
        · by_cases hb : pyEnds (pyUpper (pyStrip s)) "**" = true <;> simp [hb, h]

/-- C8 witness: the amended theorem applied at "BRK-B" (non-`**` branch),
at " spaxx **" (`**` branch), and at "BRK.B" (shape characterization). -/
theorem clean_symbol_amended_witness :
    (cleanSymbol "BRK-B").toList.all cleanSymbolKeep = true
    ∧ cleanSymbol " spaxx **" = stripAllWs (symNorm " spaxx **")
    ∧ looksLikeSymbol "BRK.B" = true :=
  ⟨clean_symbol_amended.1 "BRK-B" (by decide),
   clean_symbol_amended.2.1 " spaxx **" (by decide) (by decide),
   (clean_symbol_amended.2.2.1 "BRK.B").mpr (by decide)⟩

/-! ### C9 -/

/-- C9: `_to_float` is total — for every raw cell it returns a rational or
absent (the embedding never throws by construction, matching the source's
catch-all `except`) — and it normalizes: currency symbols, thousands
separators, percent signs and a leading `+` are stripped, a fully
parenthesized value is negated, and em/en dash, `NM`, `-`, the empty
string, `nan` and `none` (case-insensitive) are absent.  In particular
`(1,234.56)` parses to `-1234.56` and `-`, `NM`, `""` are absent. -/
theorem to_float_total_and_normalizes :
    (∀ v : Option String, toFloat v = none ∨ ∃ q : ℚ, toFloat v = some q)
    ∧ toFloat (some "(1,234.56)") = some (-1234.56 : ℚ)
    ∧ toFloat (some "-") = none
    ∧ toFloat (some "NM") = none
    ∧ toFloat (some "") = none
    ∧ toFloat (some "—") = none
    ∧ toFloat (some "–") = none
    ∧ toFloat (some "nan") = none
    ∧ toFloat (some "NaN") = none
    ∧ toFloat (some "None") = none
    ∧ toFloat none = none
    ∧ toFloat (some "$1,234") = some (1234 : ℚ)
    ∧ toFloat (some "+5%") = some (5 : ℚ)
    ∧ toFloat (some "(1,234.56)") = Option.map Neg.neg (toFloat (some "$1,234.56")) := by
  refine ⟨?_, ?_, ?_, ?_, ?_, ?_, ?_, ?_, ?_, ?_, ?_, ?_, ?_, ?_⟩
  · intro v
    cases h : toFloat v with
    | none => exact Or.inl rfl
    | some q => exact Or.inr ⟨q, rfl⟩
  · have h : toFloatParts (some "(1,234.56)") = some (-30864, 25) := by decide
    simp [toFloat, h, partsToQ]
    norm_num
  · have h : toFloatParts (some "-") = none := by decide
    simp [toFloat, h]
  · have h : toFloatParts (some "NM") = none := by decide
    simp [toFloat, h]
  · have h : toFloatParts (some "") = none := by decide
    simp [toFloat, h]
  · have h : toFloatParts (some "—") = none := by decide
    simp [toFloat, h]
  · have h : toFloatParts (some "–") = none := by decide
    simp [toFloat, h]
  · have h : toFloatParts (some "nan") = none := by decide
    simp [toFloat, h]
  · have h : toFloatParts (some "NaN") = none := by decide
    simp [toFloat, h]
  · have h : toFloatParts (some "None") = none := by decide
    simp [toFloat, h]
  · rfl
  · have h : toFloatParts (some "$1,234") = some (1234, 1) := by decide
    simp [toFloat, h, partsToQ]
  · have h : toFloatParts (some "+5%") = some (5, 1) := by decide
    simp [toFloat, h, partsToQ]
  · have h1 : toFloatParts (some "(1,234.56)") = some (-30864, 25) := by decide
    have h2 : toFloatParts (some "$1,234.56") = some (30864, 25) := by decide
    simp [toFloat, h1, h2, partsToQ]
    norm_num

/-! ### C10 -/

/-- C10: in the identity key, the price field is interpolated as
`{price or ''}`, and Python's `or` treats `0.0` as falsy, so a parsed price
of exactly zero serializes as the empty string — the same as a missing
price.  Two rows identical except for price cells `"0.00"` and `""`
therefore get the same `trade_id` and upsert to one ledger record. -/
theorem trade_id_zero_price_collapse :
    (∀ (f : RowFields) (p : Parts), p.1 = 0 →
        tradeId { f with price := some p } = tradeId { f with price := none })
    ∧ (ingestActivity ctxA 0 [rowBuyZeroPrice, rowBuyNoPrice] []).ledger.length = 1
    ∧ rowTradeFields rowBuyZeroPrice ≠ rowTradeFields rowBuyNoPrice := by
  refine ⟨?_, by decide, by decide⟩
  intro f p hp
  simp [tradeId, tradeKey, identityFields, pyOrEmptyNum, hp]

/-- C10 witness: the zero-price collapse applied to the fields extracted
from the concrete zero-price row. -/
theorem trade_id_zero_price_collapse_witness :
    tradeId { tradeDate := "2025-09-18", side := "BUY", sym := "XOM"
            , qtyAbs := (3, 1), price := some (0, 1), fees := none
            , settle := none, action := "YOU BOUGHT XOM", desc := "EXXON MOBIL" }
      = tradeId { tradeDate := "2025-09-18", side := "BUY", sym := "XOM"
                , qtyAbs := (3, 1), price := none, fees := none
                , settle := none, action := "YOU BOUGHT XOM", desc := "EXXON MOBIL" } :=
  trade_id_zero_price_collapse.1
    { tradeDate := "2025-09-18", side := "BUY", sym := "XOM"
    , qtyAbs := (3, 1), price := some (0, 1), fees := none
    , settle := none, action := "YOU BOUGHT XOM", desc := "EXXON MOBIL" }
    (0, 1) rfl

/-! ### C2 -/

/-- C2: the trade identity is a function of only the seven normalized
fields `(trade_date, side, ticker, quantity magnitude, price-or-empty,
settlement-date-or-empty, lowercased raw action text)`: two rows whose
extractions agree on those fields get the same `trade_id`, the documents
built from them — under any filenames, upload times, or row positions —
carry the same `trade_id`, and upserting a document whose identity is
already present never grows the ledger. -/
theorem trade_identity_determinism :
    (∀ (r1 r2 : ActivityRow) (e1 e2 : RowFields),
        rowTradeFields r1 = some e1 → rowTradeFields r2 = some e2 →
        identityFields e1 = identityFields e2 → tradeId e1 = tradeId e2)
    ∧ (∀ (ctx1 ctx2 : SourceCtx) (t1 t2 : Nat) (e1 e2 : RowFields),
        identityFields e1 = identityFields e2 →
        (buildDoc ctx1 t1 e1).trade_id = (buildDoc ctx2 t2 e2).trade_id)
    ∧ (∀ (L : List TradeDoc) (d e : TradeDoc),
        d ∈ L → e.trade_id = d.trade_id →
        ((upsertOne L e).1).length = L.length) := by
  refine ⟨?_, ?_, ?_⟩
  · intro _ _ e1 e2 _ _ h
    simp [tradeId, tradeKey, h]
  · intro _ _ _ _ e1 e2 h
    show tradeId e1 = tradeId e2
    simp [tradeId, tradeKey, h]
  · intro L d e hd hid
    have : (L.find? (fun x => x.trade_id == e.trade_id)).isSome := by
      rw [List.find?_isSome]
      exact ⟨d, hd, by simp [hid]⟩
    unfold upsertOne
    cases hf : L.find? (fun x => x.trade_id == e.trade_id) with
    | none => rw [hf] at this; simp at this
    | some old => simp

/-- C2 witness: two rows from different files, uploaded at different times
and row positions, that differ in their description cell but agree on the
seven identity fields, produce equal trade ids at each of the three
levels. -/
theorem trade_identity_determinism_witness :
    (tradeId { tradeDate := "2025-09-18", side := "SELL", sym := "AAPL"
             , qtyAbs := (10, 1), price := some (150, 1), fees := some (1, 20)
             , settle := some "2025-09-20", action := "YOU SOLD AAPL", desc := "APPLE INC" }
      = tradeId { tradeDate := "2025-09-18", side := "SELL", sym := "AAPL"
                , qtyAbs := (10, 1), price := some (150, 1), fees := none
                , settle := some "2025-09-20", action := "You sold AAPL", desc := "" })
    ∧ ((buildDoc ctxA 0
          { tradeDate := "2025-09-18", side := "SELL", sym := "AAPL"
          , qtyAbs := (10, 1), price := some (150, 1), fees := some (1, 20)
          , settle := some "2025-09-20", action := "YOU SOLD AAPL", desc := "APPLE INC" }).trade_id
        = (buildDoc ctxB 7
            { tradeDate := "2025-09-18", side := "SELL", sym := "AAPL"
            , qtyAbs := (10, 1), price := some (150, 1), fees := none
            , settle := some "2025-09-20", action := "You sold AAPL", desc := "" }).trade_id)
    ∧ ((upsertOne (validDocs ctxA 0 [rowSellAAPL])
          (buildDoc ctxB 7
            { tradeDate := "2025-09-18", side := "SELL", sym := "AAPL"
            , qtyAbs := (10, 1), price := some (150, 1), fees := none
            , settle := some "2025-09-20", action := "You sold AAPL", desc := "" })).1.length
        = (validDocs ctxA 0 [rowSellAAPL]).length) :=
  ⟨trade_identity_determinism.1 rowSellAAPL rowSellAAPL2 _ _ (by decide) (by decide) (by decide),
   trade_identity_determinism.2.1 ctxA ctxB 0 7 _ _ (by decide),
   trade_identity_determinism.2.2 _
     (buildDoc ctxA 0
       { tradeDate := "2025-09-18", side := "SELL", sym := "AAPL"
       , qtyAbs := (10, 1), price := some (150, 1), fees := some (1, 20)
       , settle := some "2025-09-20", action := "YOU SOLD AAPL", desc := "APPLE INC" })
     _ (by decide) (by decide)⟩

/-! ### C1 -/

theorem buildDoc_trade_id (ctx : SourceCtx) (t : Nat) (f : RowFields) :
    (buildDoc ctx t f).trade_id = tradeId f := rfl

theorem buildDoc_updated_at (ctx : SourceCtx) (t : Nat) (f : RowFields) :
    (buildDoc ctx t f).updated_at = t := rfl

theorem validFields_cons_none {r : ActivityRow} {rows : List ActivityRow}
    (h : rowTradeFields r = none) :
    validFields (r :: rows) = validFields rows := by
  simp [validFields, List.filterMap_cons, h]

theorem validFields_cons_some {r : ActivityRow} {rows : List ActivityRow}
    {f : RowFields} (h : rowTradeFields r = some f) :
    validFields (r :: rows) = f :: validFields rows := by
  simp [validFields, List.filterMap_cons, h]

theorem validIds_eq (rows : List ActivityRow) :
    validIds rows = (validFields rows).map tradeId := rfl

theorem validDocs_eq (ctx : SourceCtx) (t : Nat) (rows : List ActivityRow) :
    validDocs ctx t rows = (validFields rows).map (buildDoc ctx t) := rfl

/-- Replacing the documents matching one id leaves `find?` for any other id
unchanged. -/
theorem find_replace_ne (L : List TradeDoc) (d : TradeDoc) (i j : String)
    (hd : d.trade_id = i) (hij : j ≠ i) :
    (L.map (fun x => if x.trade_id == i then d else x)).find?
        (fun x => x.trade_id == j)
      = L.find? (fun x => x.trade_id == j) := by
  induction L with
  | nil => rfl
  | cons a L ih =>
    simp only [List.map_cons]
    by_cases ha : a.trade_id = i
    · rw [if_pos (by simpa using ha)]
      rw [List.find?_cons_of_neg _ (by simp [hd, Ne.symm hij]),
        List.find?_cons_of_neg _ (by simp [ha, Ne.symm hij])]
      exact ih
    · rw [if_neg (by simpa using ha)]
      by_cases haj : a.trade_id = j
      · rw [List.find?_cons_of_pos _ (by simp [haj]),
          List.find?_cons_of_pos _ (by simp [haj])]
      · rw [List.find?_cons_of_neg _ (by simp [haj]),
          List.find?_cons_of_neg _ (by simp [haj])]
        exact ih

/-- A first upload of a file whose valid rows carry pairwise-distinct trade
identities, none already present, appends one document per valid row and
counts each as written. -/
theorem ingest_first_upload (ctx : SourceCtx) (t : Nat) :
    ∀ (rows : List ActivityRow) (L0 : List TradeDoc) (w k n : Nat),
      (∀ x ∈ L0, ∀ i ∈ validIds rows, x.trade_id ≠ i) →
      (validIds rows).Nodup →
      (rows.foldl (ingestStep ctx t) ⟨L0, w, k, n⟩).ledger = L0 ++ validDocs ctx t rows
      ∧ (rows.foldl (ingestStep ctx t) ⟨L0, w, k, n⟩).written = w + (validIds rows).length := by
  intro rows
  induction rows with
  | nil =>
    intro L0 w k n _ _
    simp [validDocs, validFields, validIds]
  | cons r rs ih =>
    intro L0 w k n hdisj hnd
    cases hf : rowTradeFields r with
    | none =>
      have e1 : validIds (r :: rs) = validIds rs := by
        simp [validIds_eq, validFields_cons_none hf]
      have e2 : validDocs ctx t (r :: rs) = validDocs ctx t rs := by
        simp [validDocs_eq, validFields_cons_none hf]
      rw [e1, e2]
      simp only [List.foldl_cons, ingestStep, hf]
      exact ih L0 w (k + 1) (n + 1) (fun x hx i hi => hdisj x hx i (by rw [e1]; exact hi))
        (by rw [← e1]; exact hnd)
    | some f =>
      have e1 : validIds (r :: rs) = tradeId f :: validIds rs := by
        simp [validIds_eq, validFields_cons_some hf]
      have e2 : validDocs ctx t (r :: rs) = buildDoc ctx t f :: validDocs ctx t rs := by
        simp [validDocs_eq, validFields_cons_some hf]
      have hnd2 := e1 ▸ hnd
      have hnotin : tradeId f ∉ validIds rs := (List.nodup_cons.mp hnd2).1
      have hnone : L0.find? (fun x => x.trade_id == tradeId f) = none := by
        rw [List.find?_eq_none]
        intro x hx
        simp only [beq_iff_eq]
        exact hdisj x hx (tradeId f) (by rw [e1]; exact List.mem_cons_self _ _)
      rw [e1, e2]
      simp only [List.foldl_cons, ingestStep, hf, upsertOne, buildDoc_trade_id, hnone,
        if_true, decide_True]
      have ihh := ih (L0 ++ [buildDoc ctx t f]) (w + 1) k (n + 1) ?_ (List.nodup_cons.mp hnd2).2
      · constructor
        · rw [ihh.1, List.append_assoc, List.singleton_append]
        · rw [ihh.2, List.length_cons]
          omega
      · intro x hx i hi
        rcases List.mem_append.mp hx with hx | hx
        · exact hdisj x hx i (by rw [e1]; exact List.mem_cons_of_mem _ hi)
        · have hxd : x = buildDoc ctx t f := by simpa using hx
          rw [hxd, buildDoc_trade_id]
          exact fun h => hnotin (h ▸ hi)

/-- Re-uploading over a ledger that already stores, for every valid row, a
document with that row's identity written at an earlier time `t1 ≠ t2`,
modifies (hence counts as written) every valid row and never changes the
number of stored documents. -/
theorem ingest_reupload (ctx : SourceCtx) (t1 t2 : Nat) (hne : t1 ≠ t2) :
    ∀ (rows : List ActivityRow) (L0 : List TradeDoc) (w k n : Nat),
      (validIds rows).Nodup →
      (∀ f ∈ validFields rows, ∃ old,
          L0.find? (fun x => x.trade_id == tradeId f) = some old
          ∧ old.updated_at = t1) →
      (rows.foldl (ingestStep ctx t2) ⟨L0, w, k, n⟩).written = w + (validIds rows).length
      ∧ (rows.foldl (ingestStep ctx t2) ⟨L0, w, k, n⟩).ledger.length = L0.length := by
  intro rows
  induction rows with
  | nil =>
    intro L0 w k n _ _
    simp [validIds, validFields]
  | cons r rs ih =>
    intro L0 w k n hnd hinv
    cases hf : rowTradeFields r with
    | none =>
      have e1 : validIds (r :: rs) = validIds rs := by
        simp [validIds_eq, validFields_cons_none hf]
      rw [e1]
      simp only [List.foldl_cons, ingestStep, hf]
      exact ih L0 w (k + 1) (n + 1) (by rw [← e1]; exact hnd)
        (fun g hg => hinv g (by rw [validFields_cons_none hf]; exact hg))
    | some f =>
      have e1 : validIds (r :: rs) = tradeId f :: validIds rs := by
        simp [validIds_eq, validFields_cons_some hf]
      have hnd2 := e1 ▸ hnd
      have hnotin : tradeId f ∉ validIds rs := (List.nodup_cons.mp hnd2).1
      obtain ⟨old, hfind, hup⟩ :=
        hinv f (by rw [validFields_cons_some hf]; exact List.mem_cons_self _ _)
      have hwrote : old ≠ buildDoc ctx t2 f := by
        intro h
        exact hne (by rw [← hup, h, buildDoc_updated_at])
      rw [e1]
      simp only [List.foldl_cons, ingestStep, hf, upsertOne, buildDoc_trade_id, hfind]
      rw [if_pos (by simpa using hwrote)]
      have ihh := ih
        (L0.map (fun x => if x.trade_id == tradeId f then buildDoc ctx t2 f else x))
        (w + 1) k (n + 1) (List.nodup_cons.mp hnd2).2 ?_
      · constructor
        · rw [ihh.1, List.length_cons]
          omega
        · rw [ihh.2, List.length_map]
      · intro g hg
        obtain ⟨oldg, hfg, hug⟩ :=
          hinv g (by rw [validFields_cons_some hf]; exact List.mem_cons_of_mem _ hg)
        refine ⟨oldg, ?_, hug⟩
        rw [find_replace_ne _ _ (tradeId f) _ (buildDoc_trade_id ctx t2 f) ?_]
        · exact hfg
        · intro h
          apply hnotin
          rw [← h]
          exact List.mem_map_of_mem tradeId hg

/-- C1 counterexample: uploading the same two-row activity file twice (the
second call necessarily at a later `utcnow`) returns `rows_written = 2`
both times — not `0` the second time — because the `$set` payload always
includes a fresh `updated_at`, so Mongo reports every re-upserted row as
modified.  The stored trade count is nevertheless unchanged. -/
theorem ingest_activity_reupload_counterexample :
    (ingestActivity ctxA 0 [rowSellAAPL, rowBuyMSFT] []).written = 2
    ∧ (ingestActivity ctxA 1 [rowSellAAPL, rowBuyMSFT]
        (ingestActivity ctxA 0 [rowSellAAPL, rowBuyMSFT] []).ledger).written = 2
    ∧ ¬ (ingestActivity ctxA 1 [rowSellAAPL, rowBuyMSFT]
        (ingestActivity ctxA 0 [rowSellAAPL, rowBuyMSFT] []).ledger).written = 0
    ∧ (ingestActivity ctxA 1 [rowSellAAPL, rowBuyMSFT]
        (ingestActivity ctxA 0 [rowSellAAPL, rowBuyMSFT] []).ledger).ledger.length
      = (ingestActivity ctxA 0 [rowSellAAPL, rowBuyMSFT] []).ledger.length := by
  decide

/-- C1 (amended): for a file whose valid rows carry pairwise-distinct trade
identities, the first upload into an empty ledger writes one row per valid
row (`rows_written = N`); re-uploading the identical file leaves the total
stored trade count unchanged, but returns `rows_written = N` again — not
`0` — whenever the second call's `updated_at` timestamp differs from the
first call's (which is always the case in practice). -/
theorem ingest_activity_reupload_amended :
    ∀ (ctx : SourceCtx) (t1 t2 : Nat) (rows : List ActivityRow),
      t1 ≠ t2 → (validIds rows).Nodup →
      (ingestActivity ctx t1 rows []).written = (validIds rows).length
      ∧ (ingestActivity ctx t2 rows (ingestActivity ctx t1 rows []).ledger).written
          = (validIds rows).length
      ∧ (ingestActivity ctx t2 rows (ingestActivity ctx t1 rows []).ledger).ledger.length
          = (ingestActivity ctx t1 rows []).ledger.length := by
  intro ctx t1 t2 rows hne hnd
  have hA := ingest_first_upload ctx t1 rows [] 0 0 0 (by simp) hnd
  have hL1 : (ingestActivity ctx t1 rows []).ledger = validDocs ctx t1 rows := by
    rw [ingestActivity, hA.1, List.nil_append]
  have hinv : ∀ f ∈ validFields rows, ∃ old,
      (validDocs ctx t1 rows).find? (fun x => x.trade_id == tradeId f) = some old
      ∧ old.updated_at = t1 := by
    intro f hfm
    have hsome : ((validDocs ctx t1 rows).find? (fun x => x.trade_id == tradeId f)).isSome := by
      rw [List.find?_isSome]
      exact ⟨buildDoc ctx t1 f,
        by rw [validDocs_eq]; exact List.mem_map_of_mem _ hfm,
        by simp [buildDoc_trade_id]⟩
    cases hfind : (validDocs ctx t1 rows).find? (fun x => x.trade_id == tradeId f) with
    | none => rw [hfind] at hsome; simp at hsome
    | some old =>
      have hmem : old ∈ validDocs ctx t1 rows := List.mem_of_find?_eq_some hfind
      rw [validDocs_eq] at hmem
      obtain ⟨g, _, hg⟩ := List.mem_map.mp hmem
      exact ⟨old, rfl, by rw [← hg, buildDoc_updated_at]⟩
  have hB := ingest_reupload ctx t1 t2 hne rows (validDocs ctx t1 rows) 0 0 0 hnd hinv
  refine ⟨by rw [ingestActivity, hA.2]; omega, ?_, ?_⟩
  · rw [ingestActivity, hL1, hB.1]
    omega
  · rw [ingestActivity, hL1, hB.2]

/-- C1 witness: the amended theorem applied to a concrete one-row file at
times 3 and 4. -/
theorem ingest_activity_reupload_amended_witness :
    (ingestActivity ctxB 3 [rowBuyMSFT] []).written = 1
    ∧ (ingestActivity ctxB 4 [rowBuyMSFT] (ingestActivity ctxB 3 [rowBuyMSFT] []).ledger).written = 1
    ∧ (ingestActivity ctxB 4 [rowBuyMSFT] (ingestActivity ctxB 3 [rowBuyMSFT] []).ledger).ledger.length
        = (ingestActivity ctxB 3 [rowBuyMSFT] []).ledger.length := by
  have h := ingest_activity_reupload_amended ctxB 3 4 [rowBuyMSFT] (by decide) (by decide)
  have e : (validIds [rowBuyMSFT]).length = 1 := by decide
  exact ⟨e ▸ h.1, e ▸ h.2.1, h.2.2⟩

/-! ### C3 -/

/-- One replay step keeps every running quantity non-negative. -/
theorem lifecycleStep_nonneg (filt : Option (List String)) (s : LState) (r : LRow)
    (h : ∀ tk, 0 ≤ s.posQty tk) : ∀ tk, 0 ≤ (lifecycleStep filt s r).posQty tk := by
  intro tk
  simp only [lifecycleStep]
  split
  · exact h tk
  split
  · exact h tk
  split
  · split
    · exact h tk
    · split
      · exact h tk
      · rename_i hq
        have hq2 : 0 < |r.qty| := lt_of_not_le hq
        split
        · simp only [updFn]
          split
          · exact add_nonneg (h _) (le_of_lt hq2)
          · exact h tk
        · split
          · simp only [updFn]
            split
            · exact le_refl 0
            · exact h tk
          · rename_i hprev
            simp only [updFn]
            split
            · split
              · exact le_refl 0
              · rename_i hlow
                have heps : (0 : ℚ) < lifecycleEps := by norm_num [lifecycleEps]
                linarith [le_of_not_lt hlow]
            · exact h tk
  · exact h tk

theorem replay_nonneg_aux (filt : Option (List String)) :
    ∀ (rows : List LRow) (s : LState), (∀ tk, 0 ≤ s.posQty tk) →
      ∀ tk, 0 ≤ (rows.foldl (lifecycleStep filt) s).posQty tk := by
  intro rows
  induction rows with
  | nil => intro s h tk; exact h tk
  | cons r rs ih =>
    intro s h tk
    exact ih _ (lifecycleStep_nonneg filt s r h) tk

/-- C3: the Position Lifecycle Engine invariants.  (a) running quantities
are never negative at any step of any replay; (b) a SELL arriving when the
ticker's running quantity is ≤ 0 clamps it to zero and records no open or
close event; (c) a BUY moving the quantity from ≤ 0 to > 0 overwrites the
ticker's `opened_at` with the trade's date; (d) a SELL bringing the
quantity within `1e-9` of zero removes the `opened_at` entry; (e) a replay
of a single SELL row leaves the output map empty. -/
theorem lifecycle_engine_invariants :
    (∀ (only : Option (List String)) (rows : List LRow) (tk : String),
        0 ≤ (openedAtReplay only rows).posQty tk)
    ∧ (∀ (filt : Option (List String)) (s : LState) (r : LRow) (tk d : String),
        lrowTicker r = tk → tk ≠ "" → isCashLikeTicker tk = false →
        lfiltSkips filt tk = false → lrowSide r = "SELL" →
        parseIsoDate r.tradeDate = some d → ¬ |r.qty| ≤ 0 →
        s.posQty tk ≤ 0 →
        (lifecycleStep filt s r).openedAt = s.openedAt
        ∧ (lifecycleStep filt s r).posQty tk = 0)
    ∧ (∀ (filt : Option (List String)) (s : LState) (r : LRow) (tk d : String),
        lrowTicker r = tk → tk ≠ "" → isCashLikeTicker tk = false →
        lfiltSkips filt tk = false → lrowSide r = "BUY" →
        parseIsoDate r.tradeDate = some d → ¬ |r.qty| ≤ 0 →
        s.posQty tk ≤ 0 → 0 < s.posQty tk + |r.qty| →
        (lifecycleStep filt s r).openedAt tk = some d
        ∧ (lifecycleStep filt s r).posQty tk = s.posQty tk + |r.qty|)
    ∧ (∀ (filt : Option (List String)) (s : LState) (r : LRow) (tk d : String),
        lrowTicker r = tk → tk ≠ "" → isCashLikeTicker tk = false →
        lfiltSkips filt tk = false → lrowSide r = "SELL" →
        parseIsoDate r.tradeDate = some d → ¬ |r.qty| ≤ 0 →
        0 < s.posQty tk → s.posQty tk - |r.qty| < lifecycleEps →
        (lifecycleStep filt s r).openedAt tk = none
        ∧ (lifecycleStep filt s r).posQty tk = 0)
    ∧ (∀ (only : Option (List String)) (r : LRow) (tk : String),
        lrowSide r = "SELL" → (openedAtReplay only [r]).openedAt tk = none) := by
  refine ⟨?_, ?_, ?_, ?_, ?_⟩
  · intro only rows tk
    unfold openedAtReplay
    split
    · exact le_refl 0
    · exact replay_nonneg_aux _ rows initLState (fun _ => le_refl 0) tk
  · intro filt s r tk d ht htne hcash hfilt hside hdate hq hprev
    subst ht
    refine ⟨?_, ?_⟩ <;>
      simp [lifecycleStep, htne, hcash, hfilt, hside, hdate, hq, hprev, updFn]
  · intro filt s r tk d ht htne hcash hfilt hside hdate hq hprev hpos
    subst ht
    refine ⟨?_, ?_⟩ <;>
      simp [lifecycleStep, htne, hcash, hfilt, hside, hdate, hq, hprev, hpos, updFn]
  · intro filt s r tk d ht htne hcash hfilt hside hdate hq hprev hlow
    subst ht
    have hnotle : ¬ s.posQty (lrowTicker r) ≤ 0 := not_le.mpr hprev
    refine ⟨?_, ?_⟩ <;>
      simp [lifecycleStep, htne, hcash, hfilt, hside, hdate, hq, hnotle, hlow, updFn]
  · intro only r tk hside
    unfold openedAtReplay
    split
    · rfl
    · simp only [List.foldl_cons, List.foldl_nil]
      simp only [lifecycleStep, hside]
      split
      · rfl
      · split
        · rfl
        · split
          · split
            · rfl
            · split
              · rfl
              · split
                · rename_i hab
                  exact absurd hab (by decide)
                · rw [if_pos (show initLState.posQty (lrowTicker r) ≤ 0 from le_refl 0)]
                  rfl
          · rfl

/-- C3 witness: the invariants instantiated — a replay of a lone SELL of 10
XYZ has quantity 0 and no opened_at; the SELL-at-zero, BUY-crossing and
SELL-to-zero step facts at concrete states and rows. -/
theorem lifecycle_engine_invariants_witness :
    (0 ≤ (openedAtReplay none [lrowSellXYZ]).posQty "XYZ")
    ∧ ((lifecycleStep none initLState lrowSellXYZ).openedAt = initLState.openedAt
        ∧ (lifecycleStep none initLState lrowSellXYZ).posQty "XYZ" = 0)
    ∧ ((lifecycleStep none initLState lrowBuyXYZ).openedAt "XYZ" = some "2025-03-01"
        ∧ (lifecycleStep none initLState lrowBuyXYZ).posQty "XYZ"
            = initLState.posQty "XYZ" + |(10 : ℚ)|)
    ∧ ((lifecycleStep none (lifecycleStep none initLState lrowBuyXYZ) lrowSellXYZ).openedAt "XYZ" = none
        ∧ (lifecycleStep none (lifecycleStep none initLState lrowBuyXYZ) lrowSellXYZ).posQty "XYZ" = 0)
    ∧ (openedAtReplay none [lrowSellXYZ]).openedAt "XYZ" = none := by
  have hbuy := lifecycle_engine_invariants.2.2.1 none initLState lrowBuyXYZ "XYZ" "2025-03-01"
    (by decide) (by decide) (by decide) (by decide) (by decide) (by decide)
    (by norm_num [lrowBuyXYZ]) (by norm_num [initLState]) (by norm_num [initLState, lrowBuyXYZ])
  refine ⟨lifecycle_engine_invariants.1 none [lrowSellXYZ] "XYZ",
    lifecycle_engine_invariants.2.1 none initLState lrowSellXYZ "XYZ" "2025-03-04"
      (by decide) (by decide) (by decide) (by decide) (by decide) (by decide)
      (by norm_num [lrowSellXYZ]) (by norm_num [initLState]),
    ⟨by simpa [lrowBuyXYZ] using hbuy.1, by simpa [lrowBuyXYZ] using hbuy.2⟩,
    lifecycle_engine_invariants.2.2.2.1 none (lifecycleStep none initLState lrowBuyXYZ)
      lrowSellXYZ "XYZ" "2025-03-04"
      (by decide) (by decide) (by decide) (by decide) (by decide) (by decide)
      (by norm_num [lrowSellXYZ]) ?_ ?_,
    lifecycle_engine_invariants.2.2.2.2 none lrowSellXYZ "XYZ" (by decide)⟩
  · rw [hbuy.2]
    norm_num [initLState, lrowBuyXYZ]
  · rw [hbuy.2]
    norm_num [initLState, lrowBuyXYZ, lrowSellXYZ, lifecycleEps]

/-! ### C4 -/

/-- C4: the Closed-Trade Matcher emits a record for a sell-day against a
prior snapshot exactly when the quantity sold is at least the prior
quantity minus the `1e-6` tolerance; otherwise the day is excluded as a
partial trim.  When emitted, the closed size is the prior snapshot
quantity, falling back to the quantity sold when the prior quantity is
zero; cost basis, P&L and P&L% follow the stated formulas, with P&L%
absent whenever the cost basis is zero or negative.  With a prior snapshot
of 100 shares, a same-day SELL of 100 produces a record and a SELL of 60
produces none. -/
theorem closed_trades_full_close_rules :
    (∀ (td tick : String) (qs pr pq ac : ℚ) (asOf : String) (rec : ClosedRow),
        sellDayRecord td tick qs pr (some (asOf, pq, ac)) = some rec →
        pq - closeTol ≤ qs)
    ∧ (∀ (td tick : String) (qs pr pq ac : ℚ) (asOf : String),
        qs + closeTol < pq →
        sellDayRecord td tick qs pr (some (asOf, pq, ac)) = none)
    ∧ (∀ (td tick : String) (qs pr pq ac : ℚ) (asOf : String) (rec : ClosedRow),
        sellDayRecord td tick qs pr (some (asOf, pq, ac)) = some rec →
        rec.qty = (if 0 < pq then pq else qs)
        ∧ (pq = 0 → rec.qty = qs)
        ∧ rec.cost_basis = ac * rec.qty
        ∧ rec.pnl_dollars = pr - rec.cost_basis
        ∧ (rec.cost_basis ≤ 0 → rec.pnl_pct = none)
        ∧ (0 < rec.cost_basis →
            rec.pnl_pct = some (rec.pnl_dollars / rec.cost_basis)))
    ∧ (sellDayRecord "2025-09-18" "AAPL" 100 1100 (some ("2025-09-10", 100, 10))
        = some c4rec)
    ∧ (sellDayRecord "2025-09-18" "AAPL" 60 660 (some ("2025-09-10", 100, 10))
        = none) := by
  refine ⟨?_, ?_, ?_, ?_, ?_⟩
  · intro td tick qs pr pq ac asOf rec h
    simp only [sellDayRecord] at h
    split at h
    · exact absurd h (by simp)
    · split at h
      · exact absurd h (by simp)
      · split at h
        · exact absurd h (by simp)
        · rename_i hnlt
          have := le_of_not_lt hnlt
          linarith [closeTol]
  · intro td tick qs pr pq ac asOf h
    simp [sellDayRecord, h]
  · intro td tick qs pr pq ac asOf rec h
    simp only [sellDayRecord] at h
    split at h
    · exact absurd h (by simp)
    · split at h
      · exact absurd h (by simp)
      · split at h
        · exact absurd h (by simp)
        · rw [Option.some_inj] at h
          subst h
          refine ⟨rfl, ?_, rfl, rfl, ?_, ?_⟩
          · intro hz
            simp [hz]
          · intro hle
            simp only
            rw [if_neg (not_lt.mpr hle)]
          · intro hlt
            simp only
            rw [if_pos hlt]
  · simp only [sellDayRecord]
    rw [if_neg (by decide), if_neg (by norm_num : ¬ (100 : ℚ) ≤ 0),
      if_neg (by norm_num [closeTol] : ¬ (100 : ℚ) + closeTol < 100)]
    rw [show pyStrip (pyUpper "AAPL") = "AAPL" from by decide,
      show strTake "2025-09-18" 10 = "2025-09-18" from by decide,
      show strTake "2025-09-10" 10 = "2025-09-10" from by decide]
    simp only [c4rec, Option.some_inj]
    norm_num
  · simp only [sellDayRecord]
    rw [if_neg (by decide), if_neg (by norm_num : ¬ (60 : ℚ) ≤ 0),
      if_pos (by norm_num [closeTol] : (60 : ℚ) + closeTol < 100)]

/-- C4 witness: the rules applied at the concrete full-close sell-day. -/
theorem closed_trades_full_close_rules_witness :
    ((100 : ℚ) - closeTol ≤ 100)
    ∧ c4rec.qty = (if (0 : ℚ) < 100 then (100 : ℚ) else 100)
    ∧ c4rec.pnl_pct = some (c4rec.pnl_dollars / c4rec.cost_basis) := by
  have h := closed_trades_full_close_rules.2.2.2.1
  exact ⟨closed_trades_full_close_rules.1 "2025-09-18" "AAPL" 100 1100 100 10 "2025-09-10" c4rec h,
    (closed_trades_full_close_rules.2.2.1 "2025-09-18" "AAPL" 100 1100 100 10 "2025-09-10" c4rec h).1,
    (closed_trades_full_close_rules.2.2.1 "2025-09-18" "AAPL" 100 1100 100 10 "2025-09-10" c4rec h).2.2.2.2.2
      (by norm_num [c4rec])⟩

/-! ### C5 -/

/-- The total position value splits into the non-cash and the `**`-cash
parts. -/
theorem totalValue_split (ps : List Position) :
    positionsTotalValue ps = nonCashValue ps + cashValue ps := by
  induction ps with
  | nil => simp [positionsTotalValue, nonCashValue, cashValue]
  | cons p ps ih =>
    by_cases h : pyEnds p.ticker "**" = true <;>
      simp [positionsTotalValue, nonCashValue, cashValue, List.filter_cons, h] at ih ⊢ <;>
      linarith

/-- C5 counterexample: for a table holding the cash sweep `SPAXX**` worth
100 and `AAPL` worth 50 with no pending row, the written snapshot has
`total_value = 150` (all position values plus pending) while the claim's
`non_cash_positions_value + pending_amount` is `50` — the code adds the
`**`-cash positions into `total_value`, contradicting the claim. -/
theorem snapshot_total_value_counterexample :
    ((ingestPositions "2025-09-18" [prowSpaxx, prowAapl]).map SnapshotDoc.total_value
        = some 150)
    ∧ ((ingestPositions "2025-09-18" [prowSpaxx, prowAapl]).map
          SnapshotDoc.non_cash_positions_value = some 50)
    ∧ ((ingestPositions "2025-09-18" [prowSpaxx, prowAapl]).map SnapshotDoc.pending_amount
        = some 0)
    ∧ ¬ (150 : ℚ) = 50 + 0 := by
  have hv100 : toFloat (some "100.00") = some 100 := by
    have h : toFloatParts (some "100.00") = some (100, 1) := by decide
    simp [toFloat, h, partsToQ]
  have hv50 : toFloat (some "50.00") = some 50 := by
    have h : toFloatParts (some "50.00") = some (50, 1) := by decide
    simp [toFloat, h, partsToQ]
  have hv40 : toFloat (some "40.00") = some 40 := by
    have h : toFloatParts (some "40.00") = some (40, 1) := by decide
    simp [toFloat, h, partsToQ]
  have hv1 : toFloat (some "1.00") = some 1 := by
    have h : toFloatParts (some "1.00") = some (1, 1) := by decide
    simp [toFloat, h, partsToQ]
  have hq100 : toFloat (some "100") = some 100 := by
    have h : toFloatParts (some "100") = some (100, 1) := by decide
    simp [toFloat, h, partsToQ]
  have hq1 : toFloat (some "1") = some 1 := by
    have h : toFloatParts (some "1") = some (1, 1) := by decide
    simp [toFloat, h, partsToQ]
  have hr1 : processPosRow prowSpaxx = .keep posSpaxx := by
    simp +decide [processPosRow, prowSpaxx, posSpaxx, hv100, hv1, hq100]
  have hr2 : processPosRow prowAapl = .keep posAapl := by
    simp +decide [processPosRow, prowAapl, posAapl, hv50, hv40, hq1]
  have hcore : ingestPositionsCore [prowSpaxx, prowAapl] = ([posSpaxx, posAapl], 0) := by
    simp [ingestPositionsCore, hr1, hr2]
  refine ⟨?_, ?_, ?_, by norm_num⟩ <;>
    norm_num +decide [ingestPositions, hcore, positionsTotalValue, nonCashValue, posValue,
      posSpaxx, posAapl]

/-- C5 (amended): in every snapshot written by `ingest_positions`,
`non_cash_positions_value` is the sum of position values over tickers not
ending in `**`, and `total_value` is the sum over all positions — the
non-cash sum plus the `**`-cash sum — plus `pending_amount` (not the
non-cash sum alone plus pending). -/
theorem snapshot_totals_amended :
    ∀ (asOf : String) (rows : List PRow) (doc : SnapshotDoc),
      ingestPositions asOf rows = some doc →
      doc.non_cash_positions_value = nonCashValue doc.positions
      ∧ doc.total_value = positionsTotalValue doc.positions + doc.pending_amount
      ∧ doc.total_value
          = nonCashValue doc.positions + cashValue doc.positions + doc.pending_amount := by
  intro asOf rows doc h
  simp only [ingestPositions] at h
  split at h
  · exact absurd h (by simp)
  · rw [Option.some_inj] at h
    subst h
    exact ⟨rfl, rfl, by simp only; rw [totalValue_split]⟩

/-- C5 witness: the amended totals at the concrete two-row snapshot. -/
theorem snapshot_totals_amended_witness :
    ∃ doc : SnapshotDoc,
      ingestPositions "2025-09-17" [prowAapl, prowSpaxx] = some doc
      ∧ doc.non_cash_positions_value = nonCashValue doc.positions
      ∧ doc.total_value
          = nonCashValue doc.positions + cashValue doc.positions + doc.pending_amount := by
  cases hdoc : ingestPositions "2025-09-17" [prowAapl, prowSpaxx] with
  | none =>
    exfalso
    have hv50 : toFloat (some "50.00") = some 50 := by
      have h : toFloatParts (some "50.00") = some (50, 1) := by decide
      simp [toFloat, h, partsToQ]
    revert hdoc
    simp +decide [ingestPositions, ingestPositionsCore, processPosRow, prowAapl, prowSpaxx]
  | some doc =>
    have h := snapshot_totals_amended "2025-09-17" [prowAapl, prowSpaxx] doc hdoc
    exact ⟨doc, rfl, h.1, h.2.2⟩

/-! ### C6 -/

/-- C6 counterexample: a row whose description cell contains the token
"pending" but whose symbol cell is `AAPL` is ingested as a Position and
contributes nothing to `pending_amount` — the code inspects only the
symbol cell, contradicting the claim's "symbol cell or description
cell". -/
theorem pending_desc_row_counterexample :
    strHasSub (pyLower "Pending settlement") "pending" = true
    ∧ (ingestPositionsCore [prowDescPending]).2 = 0
    ∧ (ingestPositionsCore [prowDescPending]).1.length = 1 := by
  refine ⟨by decide, ?_, ?_⟩ <;>
    simp +decide [ingestPositionsCore, processPosRow, prowDescPending]

/-- C6 (amended): a row is routed to `pending_amount` exactly on the
symbol-cell test `sym_norm == "PENDING" or "pending" in sym_raw.lower()`
— the description cell is not consulted; such a row adds its parsed value
to `pending_amount` and emits no Position.  The canonical instance
(symbol "Pending Activity", value `-500.00`) contributes
`pending_amount == -500` and zero Position records. -/
theorem pending_symbol_only_amended :
    (∀ (rows : List PRow) (r : PRow), pendingRowTest (pyStrip r.symbol) = true →
        (ingestPositionsCore (rows ++ [r])).1 = (ingestPositionsCore rows).1
        ∧ (ingestPositionsCore (rows ++ [r])).2
            = (ingestPositionsCore rows).2 + (toFloat r.value).getD 0)
    ∧ (ingestPositionsCore [prowPendingActivity]).1 = []
    ∧ (ingestPositionsCore [prowPendingActivity]).2 = -500 := by
  have hm500 : toFloat (some "-500.00") = some (-500) := by
    have h : toFloatParts (some "-500.00") = some (-500, 1) := by decide
    simp [toFloat, h, partsToQ]
  refine ⟨?_, ?_, ?_⟩
  · intro rows r h
    have hrow : processPosRow r = .pending ((toFloat r.value).getD 0) := by
      simp only [processPosRow]
      rw [if_pos h]
    constructor <;> simp [ingestPositionsCore, List.foldl_append, hrow]
  · simp +decide [ingestPositionsCore, processPosRow, prowPendingActivity]
  · simp +decide [ingestPositionsCore, processPosRow, prowPendingActivity, hm500]

/-- C6 witness: the symbol-cell pending routing applied to the concrete
"Pending Activity" row appended after the `AAPL` row. -/
theorem pending_symbol_only_amended_witness :
    (ingestPositionsCore ([prowAapl] ++ [prowPendingActivity])).1
        = (ingestPositionsCore [prowAapl]).1
    ∧ (ingestPositionsCore ([prowAapl] ++ [prowPendingActivity])).2
        = (ingestPositionsCore [prowAapl]).2
          + (toFloat prowPendingActivity.value).getD 0 :=
  pending_symbol_only_amended.1 [prowAapl] prowPendingActivity (by decide)

/-! ### C7 -/

/-- C7 counterexample: on a table in the standard layout whose data is
shifted (symbol values under "Account Name"), the repair triggers and maps
the symbol field to "Account Name" — the column immediately *preceding*
the originally-expected "Symbol" column — not to "Description", the column
immediately following it, as the claim states. -/
theorem shift_repair_direction_counterexample :
    (repairShiftIfNeeded dfShifted colsStd).symbol = some "Account Name"
    ∧ colsStd.symbol = some "Symbol"
    ∧ colAfter (columnNames dfShifted) "Symbol" = some "Description"
    ∧ ¬ (repairShiftIfNeeded dfShifted colsStd).symbol = some "Description"
    ∧ colAfter (columnNames dfShifted) "Account Name" = some "Symbol" := by
  have hsym : tickerLikeRate (getCol dfShifted "Symbol") = 0 := by
    have h1 : tickerSeenCount (getCol dfShifted "Symbol") = 1 := by decide
    have h2 : tickerGoodCount (getCol dfShifted "Symbol") = 0 := by decide
    simp [tickerLikeRate, h1, h2]
  have hacct : tickerLikeRate (getCol dfShifted "Account Name") = 1 := by
    have h1 : tickerSeenCount (getCol dfShifted "Account Name") = 1 := by decide
    have h2 : tickerGoodCount (getCol dfShifted "Account Name") = 1 := by decide
    simp [tickerLikeRate, h1, h2]
  have hrep : (repairShiftIfNeeded dfShifted colsStd).symbol = some "Account Name" := by
    simp only [repairShiftIfNeeded, colsStd]
    rw [if_neg (by decide), if_pos ⟨by rw [hsym]; norm_num, by rw [hacct]; norm_num⟩]
  exact ⟨hrep, by decide, by decide, by rw [hrep]; decide, by decide⟩

/-- C7 (amended): the repair triggers exactly when a symbol column was
chosen, an "Account Name" column exists, the symbol column's
ticker-likeness rate is below 0.15, and the "Account Name" column's rate
exceeds 0.40; when not triggered the map is returned unchanged.  When
triggered, each field is remapped to a fixed hard-coded column name (used
only when present in the table, keeping the original mapping otherwise) —
and in the standard export layout each of those target names labels the
column immediately *preceding* the field's originally-expected column, not
following it. -/
theorem shift_repair_amended :
    (∀ (df : Table) (cols : ColsMap), cols.symbol = none →
        repairShiftIfNeeded df cols = cols)
    ∧ (∀ (df : Table) (cols : ColsMap) (symCol : String), cols.symbol = some symCol →
        (columnNames df).contains "Account Name" = false →
        repairShiftIfNeeded df cols = cols)
    ∧ (∀ (df : Table) (cols : ColsMap) (symCol : String), cols.symbol = some symCol →
        (columnNames df).contains "Account Name" = true →
        ¬ (tickerLikeRate (getCol df symCol) < 15 / 100
            ∧ tickerLikeRate (getCol df "Account Name") > 40 / 100) →
        repairShiftIfNeeded df cols = cols)
    ∧ (∀ (df : Table) (cols : ColsMap) (symCol : String), cols.symbol = some symCol →
        (columnNames df).contains "Account Name" = true →
        tickerLikeRate (getCol df symCol) < 15 / 100 →
        tickerLikeRate (getCol df "Account Name") > 40 / 100 →
        repairShiftIfNeeded df cols =
          { symbol := some "Account Name"
          , desc := if (columnNames df).contains "Symbol" then some "Symbol" else cols.desc
          , qty := if (columnNames df).contains "Description" then some "Description" else cols.qty
          , price := if (columnNames df).contains "Quantity" then some "Quantity" else cols.price
          , value := if (columnNames df).contains "Last Price Change" then some "Last Price Change" else cols.value
          , cost := if (columnNames df).contains "Percent Of Account" then some "Percent Of Account" else cols.cost
          , avg := if (columnNames df).contains "Cost Basis Total" then some "Cost Basis Total" else cols.avg
          , day := if (columnNames df).contains "Current Value" then some "Current Value" else cols.day
          , total := if (columnNames df).contains colTodaysGLPercent then some colTodaysGLPercent else cols.total
          , weight := if (columnNames df).contains "Total Gain/Loss Percent" then some "Total Gain/Loss Percent" else cols.weight })
    ∧ (colAfter stdPositionsHeaders "Account Name" = some "Symbol"
      ∧ colAfter stdPositionsHeaders "Symbol" = some "Description"
      ∧ colAfter stdPositionsHeaders "Description" = some "Quantity"
      ∧ colAfter stdPositionsHeaders "Quantity" = some "Last Price"
      ∧ colAfter stdPositionsHeaders "Last Price Change" = some "Current Value"
      ∧ colAfter stdPositionsHeaders "Current Value" = some colTodaysGLDollar
      ∧ colAfter stdPositionsHeaders colTodaysGLPercent = some "Total Gain/Loss Dollar"
      ∧ colAfter stdPositionsHeaders "Total Gain/Loss Percent" = some "Percent Of Account"
      ∧ colAfter stdPositionsHeaders "Percent Of Account" = some "Cost Basis Total"
      ∧ colAfter stdPositionsHeaders "Cost Basis Total" = some "Average Cost Basis") := by
  refine ⟨?_, ?_, ?_, ?_, by decide⟩
  · intro df cols h
    simp [repairShiftIfNeeded, h]
  · intro df cols symCol h1 h2
    simp only [repairShiftIfNeeded, h1]
    rw [if_pos (by simpa using h2)]
  · intro df cols symCol h1 h2 h3
    simp only [repairShiftIfNeeded, h1]
    rw [if_neg (by simpa using h2), if_neg h3]
  · intro df cols symCol h1 h2 h3 h4
    simp only [repairShiftIfNeeded, h1]
    rw [if_neg (by simpa using h2), if_pos ⟨h3, h4⟩]

/-- C7 witness: the trigger applied at the concrete shifted table. -/
theorem shift_repair_amended_witness :
    repairShiftIfNeeded dfShifted colsStd =
      { symbol := some "Account Name"
      , desc := if (columnNames dfShifted).contains "Symbol" then some "Symbol" else colsStd.desc
      , qty := if (columnNames dfShifted).contains "Description" then some "Description" else colsStd.qty
      , price := if (columnNames dfShifted).contains "Quantity" then some "Quantity" else colsStd.price
      , value := if (columnNames dfShifted).contains "Last Price Change" then some "Last Price Change" else colsStd.value
      , cost := if (columnNames dfShifted).contains "Percent Of Account" then some "Percent Of Account" else colsStd.cost
      , avg := if (columnNames dfShifted).contains "Cost Basis Total" then some "Cost Basis Total" else colsStd.avg
      , day := if (columnNames dfShifted).contains "Current Value" then some "Current Value" else colsStd.day
      , total := if (columnNames dfShifted).contains colTodaysGLPercent then some colTodaysGLPercent else colsStd.total
      , weight := if (columnNames dfShifted).contains "Total Gain/Loss Percent" then some "Total Gain/Loss Percent" else colsStd.weight } :=
  shift_repair_amended.2.2.2.1 dfShifted colsStd "Symbol" (by decide) (by decide)
    (by
      norm_num [tickerLikeRate,
        show tickerSeenCount (getCol dfShifted "Symbol") = 1 from by decide,
        show tickerGoodCount (getCol dfShifted "Symbol") = 0 from by decide])
    (by
      norm_num [tickerLikeRate,
        show tickerSeenCount (getCol dfShifted "Account Name") = 1 from by decide,
        show tickerGoodCount (getCol dfShifted "Account Name") = 1 from by decide])

end Trading
